import Mathlib

/-!
# Verification of the Relation app core against its specification

Shallow embedding of the relationship-lifecycle state machine, the graph
projection engine and the insights computation of the Relation repository
(`src/App.tsx` and the SQL schema/functions), together with theorems that
settle the specification claims.

Conventions of the embedding:
* TypeScript string union types (`status`, `direction`) become inductive types.
* `crypto.randomUUID()` and `new Date(...)` results are passed in as explicit
  parameters, since the TypeScript operations are otherwise pure state
  transformers over the React state (`currentUser`, `relationships`,
  `requests`, UI view state).
* ISO timestamp strings that are only stored, never compared, stay `String`.
  `last_interaction` is stored by the code as a `"YYYY-MM-DD"` string whose
  only computational use is `new Date(s)` comparison; it is embedded as a
  calendar date (`CivilDate`) and comparisons use the day-number timestamp,
  which agrees with the JavaScript `Date` timeline.
-/

/-! ## String helpers

JavaScript string operations used by the code, embedded as structurally
recursive functions over the character list so that concrete evaluations
reduce in the kernel. Character comparison is by code point, which is the
comparison JavaScript and the Postgres byte order use on these ASCII ids. -/

/-- Code-point lexicographic `≤` on character lists. -/
def charsLe : List Char → List Char → Bool
  | [], _ => true
  | _ :: _, [] => false
  | c :: cs, d :: ds =>
    if c.toNat < d.toNat then true
    else if c.toNat = d.toNat then charsLe cs ds
    else false

/-- Lexicographic `≤` on strings (the total order over identity ids). -/
def strLe (a b : String) : Bool := charsLe a.data b.data

/-- Postgres `LEAST` over two ids. -/
def uuidLeast (a b : String) : String := if strLe a b then a else b

/-- Postgres `GREATEST` over two ids. -/
def uuidGreatest (a b : String) : String := if strLe a b then b else a

/-- `p` is a prefix of the second list (character-wise). -/
def charsIsPrefix : List Char → List Char → Bool
  | [], _ => true
  | _ :: _, [] => false
  | c :: cs, d :: ds => c == d && charsIsPrefix cs ds

/-- `p` occurs contiguously in the second list. -/
def charsIsInfix (p : List Char) : List Char → Bool
  | [] => charsIsPrefix p []
  | s@(_ :: rest) => charsIsPrefix p s || charsIsInfix p rest

/-- JS `String.prototype.toLowerCase` (ASCII-relevant part). -/
def jsToLower (s : String) : String := ⟨s.data.map Char.toLower⟩

/-- JS `s.startsWith(p)`. -/
def jsStartsWith (s p : String) : Bool := charsIsPrefix p.data s.data

/-- JS `s.includes(sub)`. -/
def jsIncludes (s sub : String) : Bool := charsIsInfix sub.data s.data

/-! ## Dates

`last_interaction` is stored as `"YYYY-MM-DD"`; the code compares
`new Date(s)` values, i.e. points on the millisecond timeline. `toOrdinal`
is the proleptic-Gregorian day number; it is linear in the `day` field, so
it agrees with the JavaScript `Date` normalization of out-of-range days
(as produced by `setMonth`). -/

/-- A calendar date; stands in for the `"YYYY-MM-DD"` strings stored in
`last_interaction` and for the date part of JS `Date` values. -/
structure CivilDate where
  year : Nat
  month : Nat
  day : Nat
deriving DecidableEq, Repr

/-- Gregorian leap year test. -/
def isLeap (y : Nat) : Bool := (y % 4 == 0 && y % 100 != 0) || y % 400 == 0

/-- Days in the months of year `y`, January first. -/
def monthLengths (y : Nat) : List Nat :=
  [31, if isLeap y then 29 else 28, 31, 30, 31, 30, 31, 31, 30, 31, 30, 31]

/-- Days of year `y` strictly before month `m` (1-based). -/
def daysBeforeMonth (y m : Nat) : Nat := ((monthLengths y).take (m - 1)).sum

/-- Day number of a civil date (day 1 = 0001-01-01). Linear in `d.day`. -/
def toOrdinal (d : CivilDate) : Nat :=
  let y := d.year - 1
  365 * y + y / 4 - y / 100 + y / 400 + daysBeforeMonth d.year d.month + d.day

/-- Milliseconds per day. -/
def msPerDay : Nat := 86400000

/-- Millisecond timestamp of midnight of a civil date. -/
def dateMs (d : CivilDate) : Nat := toOrdinal d * msPerDay

/-- JS `date.setMonth(date.getMonth() - 3)` on the date part: subtract three
months keeping the day-of-month; day overflow is normalized by `dateMs`'s
linearity, exactly as the JS engine normalizes it. -/
def threeMonthsBefore (d : CivilDate) : CivilDate :=
  if d.month > 3 then { d with month := d.month - 3 }
  else { year := d.year - 1, month := d.month + 9, day := d.day }

/-- Status of a relationship request: TS union `'pending' | 'accepted' | 'declined'`. -/
inductive Status where
  | pending
  | accepted
  | declined
deriving DecidableEq, Repr

/-- Direction of a request relative to the viewer: TS union `'outgoing' | 'incoming'`. -/
inductive Direction where
  | outgoing
  | incoming
deriving DecidableEq, Repr

/-- User profile, from `src/types` as used by `App.tsx`
(`id`, `email`, `name`, `phone_hash`, `avatar_url`, `contribution_score`,
`created_at`, `updated_at`). -/
structure User where
  id : String
  email : String
  name : String
  phone_hash : Option String
  avatar_url : Option String
  contribution_score : Int
  created_at : String
  updated_at : String
deriving DecidableEq, Repr

/-- Verified relationship edge, from `src/types` (`Relationship`). -/
structure Relationship where
  id : String
  user_a : String
  user_b : String
  relationship_type : String
  hide_reason : Bool
  strength : Int
  last_interaction : Option CivilDate
  verified_at : String
  created_at : String
  user_b_data : Option User
deriving DecidableEq, Repr

/-- Relationship request, from `src/types` (`RelationshipRequest`). -/
structure RelationshipRequest where
  id : String
  from_user_id : String
  to_phone_hash : String
  to_user_id : Option String
  to_name : String
  from_name : Option String
  relationship_type : String
  hide_reason : Bool
  status : Status
  direction : Direction
  created_at : String
  updated_at : String
deriving DecidableEq, Repr

/-- Graph filter state, from `src/types` (`GraphFilters`). -/
structure GraphFilters where
  searchQuery : String
  showHidden : Bool
  minStrength : Int
  maxStrength : Int
deriving DecidableEq, Repr

/-- The React state of `App.tsx` that the modelled operations read and write. -/
structure AppState where
  currentUser : User
  relationships : List Relationship
  requests : List RelationshipRequest
  filters : GraphFilters
  expandedFriendId : Option String
  isTransitioningBack : Bool
  visibleConnectionCount : Nat
  selectedConnection : Option Relationship
  showSelfProfile : Bool
deriving DecidableEq, Repr

/-- `App.tsx` line 179: network depth from the verified relationship count:
`relationships.length >= 5 ? 3 : relationships.length >= 2 ? 2 : 1`. -/
def networkDepth (n : Nat) : Nat :=
  if n ≥ 5 then 3 else if n ≥ 2 then 2 else 1

/-- The tier computation of the SQL function `get_network_depth`
(`IF rel_count >= 5 THEN 3 ELSIF rel_count >= 2 THEN 2 ELSE 1`). -/
def get_network_depth_tier (rel_count : Nat) : Nat :=
  if rel_count ≥ 5 then 3
  else if rel_count ≥ 2 then 2
  else 1

/-- The `newRelationship` literal of `acceptIncomingRequest`
(`App.tsx` lines 299-319), named so theorems can refer to it. -/
def acceptedRelationship (s : AppState) (request : RelationshipRequest)
    (relationshipType newRelId nowIso : String) (today : CivilDate) :
    Relationship :=
  { id := newRelId
    user_a := s.currentUser.id
    user_b := request.from_user_id
    relationship_type := relationshipType
    hide_reason := request.hide_reason
    strength := 5
    last_interaction := some today
    verified_at := nowIso
    created_at := nowIso
    user_b_data := some
      { id := request.from_user_id
        email := ""
        name := request.from_name.getD "Unknown"
        phone_hash := some ""
        avatar_url := none
        contribution_score := 1
        created_at := nowIso
        updated_at := nowIso } }

/-- `acceptIncomingRequest` (`App.tsx` lines 292-326).
`newRelId` stands for `crypto.randomUUID()`, `nowIso` for
`new Date().toISOString()` and `today` for the date part
`new Date().toISOString().split('T')[0]`. -/
def acceptIncomingRequest (s : AppState) (requestId relationshipType : String)
    (newRelId nowIso : String) (today : CivilDate) : AppState :=
  match s.requests.find? (fun r => decide (r.id = requestId)) with
  | none => s
  | some request =>
    if request.status = Status.pending ∧ request.direction = Direction.incoming then
      { s with
        relationships := s.relationships ++
          [acceptedRelationship s request relationshipType newRelId nowIso today]
        currentUser :=
          { s.currentUser with
            contribution_score := s.currentUser.contribution_score + 1 }
        requests := s.requests.map (fun r =>
          if r.id = requestId then
            { r with status := Status.accepted
                     relationship_type := relationshipType
                     updated_at := nowIso }
          else r) }
    else s

/-- `declineRequest` (`App.tsx` lines 329-333): maps the matching request to
status `'declined'`, with no guard on its current status. -/
def declineRequest (s : AppState) (requestId nowIso : String) : AppState :=
  { s with
    requests := s.requests.map (fun r =>
      if r.id = requestId then
        { r with status := Status.declined, updated_at := nowIso }
      else r) }

/-- `withdrawRequest` (`App.tsx` lines 336-338): unconditionally filters the
request with the given id out of the request list. -/
def withdrawRequest (s : AppState) (requestId : String) : AppState :=
  { s with requests := s.requests.filter (fun r => decide (r.id ≠ requestId)) }

/-- `removeRelationship` (`App.tsx` lines 341-344). -/
def removeRelationship (s : AppState) (relationshipId : String) : AppState :=
  { s with
    relationships := s.relationships.filter (fun r => decide (r.id ≠ relationshipId))
    selectedConnection := none }

/-- The `newRelationship` literal of `simulateAcceptOutgoing`
(`App.tsx` lines 355-375). -/
def simulatedRelationship (s : AppState) (request : RelationshipRequest)
    (otherUserId newRelId nowIso : String) (today : CivilDate) : Relationship :=
  { id := newRelId
    user_a := s.currentUser.id
    user_b := otherUserId
    relationship_type := request.relationship_type
    hide_reason := request.hide_reason
    strength := 5
    last_interaction := some today
    verified_at := nowIso
    created_at := nowIso
    user_b_data := some
      { id := otherUserId
        email := ""
        name := request.to_name
        phone_hash := some request.to_phone_hash
        avatar_url := none
        contribution_score := 1
        created_at := nowIso
        updated_at := nowIso } }

/-- `simulateAcceptOutgoing` (`App.tsx` lines 347-382). `otherUserId` and
`newRelId` stand for the two `crypto.randomUUID()` calls. -/
def simulateAcceptOutgoing (s : AppState) (requestId : String)
    (otherUserId newRelId nowIso : String) (today : CivilDate) : AppState :=
  match s.requests.find? (fun r => decide (r.id = requestId)) with
  | none => s
  | some request =>
    if request.status = Status.pending ∧ request.direction = Direction.outgoing then
      { s with
        relationships := s.relationships ++
          [simulatedRelationship s request otherUserId newRelId nowIso today]
        currentUser :=
          { s.currentUser with
            contribution_score := s.currentUser.contribution_score + 1 }
        requests := s.requests.map (fun r =>
          if r.id = requestId then
            { r with status := Status.accepted, updated_at := nowIso }
          else r) }
    else s

/-- Pending outgoing requests, the expression
`requests.filter(r => r.status === 'pending' && r.direction === 'outgoing')`
used in `App.tsx` (stagger effect line 156 and graph build line 532). -/
def pendingOutgoing (requests : List RelationshipRequest) : List RelationshipRequest :=
  requests.filter (fun r =>
    decide (r.status = Status.pending) && decide (r.direction = Direction.outgoing))

/-- `totalConnections` of the stagger effect (`App.tsx` line 156):
`relationships.length + requests.filter(pending ∧ outgoing).length`. -/
def totalConnections (s : AppState) : Nat :=
  s.relationships.length + (pendingOutgoing s.requests).length

/-- `handleNodeClick` (`App.tsx` lines 239-284). The `setTimeout` callback that
later clears `isTransitioningBack` is modelled separately as
`finishTransition`. -/
def handleNodeClick (s : AppState) (nodeId : String) : AppState :=
  if nodeId = s.currentUser.id then
    let s' := { s with selectedConnection := none, showSelfProfile := true }
    match s.expandedFriendId with
    | some _ => { s' with isTransitioningBack := true, expandedFriendId := none }
    | none => s'
  else if jsStartsWith nodeId "pending-" || jsStartsWith nodeId "fof-" then s
  else
    match s.relationships.find? (fun r =>
        decide (r.user_a = nodeId) || decide (r.user_b = nodeId)) with
    | none => s
    | some rel =>
      let friendId := if rel.user_a = s.currentUser.id then rel.user_b else rel.user_a
      if s.expandedFriendId = some friendId then
        { s with selectedConnection := none, isTransitioningBack := true,
                 expandedFriendId := none }
      else
        { s with showSelfProfile := false, selectedConnection := some rel,
                 expandedFriendId := some friendId }

/-- The `setTimeout(() => setIsTransitioningBack(false), 300)` callback fired
after a collapse transition. -/
def finishTransition (s : AppState) : AppState :=
  { s with isTransitioningBack := false }

/-- The `fadingRelationships` computation of `calculateInsights`
(`App.tsx` lines 578-584): `threeMonthsAgo = new Date(); threeMonthsAgo.setMonth(-3)`
then keep relationships with null `last_interaction` or
`new Date(last_interaction) < threeMonthsAgo`. `now` is the date part of the
evaluation instant and `timeOfDayMs` its time of day in milliseconds. -/
def fadingRelationships (now : CivilDate) (timeOfDayMs : Nat)
    (relationships : List Relationship) : List Relationship :=
  relationships.filter (fun rel =>
    match rel.last_interaction with
    | none => true
    | some d => decide (dateMs d < dateMs (threeMonthsBefore now) + timeOfDayMs))

/-- The relationship filter of `buildGraphData` (`App.tsx` lines 492-499):
only the search query is consulted; a relationship without `user_b_data`
passes any query. -/
def filteredRels (relationships : List Relationship) (filters : GraphFilters) :
    List Relationship :=
  relationships.filter (fun rel =>
    if filters.searchQuery ≠ "" then
      match rel.user_b_data with
      | some otherUser =>
        jsIncludes (jsToLower otherUser.name) (jsToLower filters.searchQuery)
      | none => true
    else true)

/-- Graph view-model node (`src/types` `GraphNode`), with the `color` and
`font` objects flattened into the fields the projector writes. -/
structure GraphNode where
  id : String
  label : String
  title : Option String
  colorBackground : String
  colorBorder : String
  size : Nat
  fontSize : Option Nat
  fontColor : Option String
  isCurrentUser : Bool
deriving DecidableEq, Repr

/-- Graph view-model edge (`src/types` `GraphEdge`); `dashes := some pat`
models the TS array value, `none` the TS `false`. -/
structure GraphEdge where
  id : String
  edgeFrom : String
  edgeTo : String
  width : Nat
  colorColor : String
  colorHighlight : Option String
  dashes : Option (List Nat)
  smooth : Bool
deriving DecidableEq, Repr

/-- A synthetic friend-of-friend connection produced by
`generateFriendConnections`. -/
structure FriendConn where
  id : String
  name : String
  relationship_type : String
deriving DecidableEq, Repr

/-- `generateFriendConnections` (`App.tsx` lines 55-82): seeded by the sum of
the friend id's char codes; deterministic in the id. The `friendName`
parameter is unused, as in the source. -/
def generateFriendConnections (friendId friendName : String) : List FriendConn :=
  let names := ["Emma Wilson", "Liam Johnson", "Olivia Brown", "Noah Davis",
    "Ava Martinez", "Ethan Garcia", "Sophia Anderson", "Mason Thomas",
    "Isabella Jackson", "Lucas White"]
  let types := ["Friend", "Coworker", "Family", "College friend", "Neighbor",
    "Roommate"]
  let seed := friendId.data.foldl (fun a c => a + c.toNat) 0
  let count := seed % 4 + 2
  (List.range count).map (fun i =>
    { id := friendId ++ "-conn-" ++ toString i
      name := names.getD ((seed + i * 7) % names.length) ""
      relationship_type := types.getD ((seed + i * 3) % types.length) "" })

/-- The accumulator state threaded through the two `forEach` loops of the
default view of `buildGraphData` (`nodes`, `edges`, `addedUsers`,
`addedCount`); `nodes`/`edges` hold only the entries appended by the loop. -/
structure LoopRes where
  nodes : List GraphNode
  edges : List GraphEdge
  added : List String
  cnt : Nat
deriving DecidableEq, Repr

/-- The verified-relationship loop of the default view
(`App.tsx` lines 502-529). Skips the whole iteration once
`addedCount >= visibleConnectionCount`; otherwise pushes the counterpart node
when it is new and `user_b_data` is present, and always pushes the edge. -/
def relLoop (meId : String) (budget : Nat) :
    List Relationship → List String → Nat → LoopRes
  | [], added, cnt => { nodes := [], edges := [], added := added, cnt := cnt }
  | rel :: rest, added, cnt =>
    if budget ≤ cnt then relLoop meId budget rest added cnt
    else
      let otherId := if rel.user_a = meId then rel.user_b else rel.user_a
      let edge : GraphEdge :=
        { id := rel.id, edgeFrom := meId, edgeTo := otherId, width := 3,
          colorColor := "#007AFF", colorHighlight := some "#0066DD",
          dashes := none, smooth := false }
      match rel.user_b_data with
      | some otherUser =>
        if otherId ∈ added then
          let res := relLoop meId budget rest added cnt
          { res with edges := edge :: res.edges }
        else
          let node : GraphNode :=
            { id := otherId, label := otherUser.name,
              title := some rel.relationship_type,
              colorBackground := "#007AFF", colorBorder := "#007AFF",
              size := 38, fontSize := none, fontColor := none,
              isCurrentUser := false }
          let res := relLoop meId budget rest (otherId :: added) (cnt + 1)
          { res with nodes := node :: res.nodes, edges := edge :: res.edges }
      | none =>
        let res := relLoop meId budget rest added cnt
        { res with edges := edge :: res.edges }

/-- The pending-outgoing-request loop of the default view
(`App.tsx` lines 532-560). Node and edge are pushed together, only when the
placeholder id is new and `to_name` is non-empty. -/
def pendLoop (meId : String) (budget : Nat) :
    List RelationshipRequest → List String → Nat → LoopRes
  | [], added, cnt => { nodes := [], edges := [], added := added, cnt := cnt }
  | req :: rest, added, cnt =>
    if budget ≤ cnt then pendLoop meId budget rest added cnt
    else
      let nodeId := "pending-" ++ req.id
      if nodeId ∉ added ∧ req.to_name ≠ "" then
        let node : GraphNode :=
          { id := nodeId, label := req.to_name,
            title := some ("Pending: " ++ req.relationship_type),
            colorBackground := "#cccccc", colorBorder := "#cccccc",
            size := 32, fontSize := none, fontColor := none,
            isCurrentUser := false }
        let edge : GraphEdge :=
          { id := "edge-" ++ req.id, edgeFrom := meId, edgeTo := nodeId,
            width := 2, colorColor := "#cccccc", colorHighlight := none,
            dashes := some [5, 5], smooth := false }
        let res := pendLoop meId budget rest (nodeId :: added) (cnt + 1)
        { res with nodes := node :: res.nodes, edges := edge :: res.edges }
      else
        pendLoop meId budget rest added cnt

/-- The self node of the default view (`App.tsx` lines 473-480). -/
def selfNodeOf (u : User) : GraphNode :=
  { id := u.id, label := u.name, title := none,
    colorBackground := "#000000", colorBorder := "#333333", size := 55,
    fontSize := some 16, fontColor := some "#1a1a1a", isCurrentUser := true }

/-- `buildGraphData` (`App.tsx` lines 386-563): the graph projector.
Produces the full node/edge snapshot for the current viewpoint. -/
def buildGraphData (s : AppState) : List GraphNode × List GraphEdge :=
  match s.expandedFriendId with
  | some expandedFriendId =>
    -- Expanded (peer) view, lines 396-470.
    let expandedRel := s.relationships.find? (fun r =>
      decide (r.user_b = expandedFriendId) || decide (r.user_a = expandedFriendId))
    match expandedRel.bind (fun r => r.user_b_data) with
    | none => ([], [])
    | some expandedFriendData =>
      let centerNode : GraphNode :=
        { id := expandedFriendId, label := expandedFriendData.name,
          title := none, colorBackground := "#007AFF", colorBorder := "#007AFF",
          size := 55, fontSize := some 16, fontColor := some "#1a1a1a",
          isCurrentUser := false }
      let youNode : GraphNode :=
        { id := s.currentUser.id, label := s.currentUser.name, title := none,
          colorBackground := "#000000", colorBorder := "#333333", size := 32,
          fontSize := some 12, fontColor := some "#1a1a1a",
          isCurrentUser := true }
      let youEdge : GraphEdge :=
        { id := "edge-you-" ++ expandedFriendId, edgeFrom := expandedFriendId,
          edgeTo := s.currentUser.id, width := 2, colorColor := "#000000",
          colorHighlight := none, dashes := none, smooth := false }
      let yourConnectionNames := s.relationships.filterMap (fun r =>
        match r.user_b_data with
        | some u => if u.name = "" then none else some (jsToLower u.name)
        | none => none)
      let friendConnections :=
        generateFriendConnections expandedFriendId expandedFriendData.name
      let fofNodes := (friendConnections.zip
          (List.range friendConnections.length)).map (fun ci =>
        let isMutual := yourConnectionNames.contains (jsToLower ci.1.name)
        let nodeColor := if isMutual then "#007AFF" else "#999999"
        ({ id := "fof-" ++ expandedFriendId ++ "-" ++ toString ci.2,
           label := ci.1.name, title := some ci.1.relationship_type,
           colorBackground := nodeColor, colorBorder := nodeColor, size := 32,
           fontSize := none, fontColor := none,
           isCurrentUser := false } : GraphNode))
      let fofEdges := (friendConnections.zip
          (List.range friendConnections.length)).map (fun ci =>
        let isMutual := yourConnectionNames.contains (jsToLower ci.1.name)
        let nodeColor := if isMutual then "#007AFF" else "#999999"
        ({ id := "edge-fof-" ++ expandedFriendId ++ "-" ++ toString ci.2,
           edgeFrom := expandedFriendId,
           edgeTo := "fof-" ++ expandedFriendId ++ "-" ++ toString ci.2,
           width := 2, colorColor := nodeColor, colorHighlight := none,
           dashes := none, smooth := false } : GraphEdge))
      (centerNode :: youNode :: fofNodes, youEdge :: fofEdges)
  | none =>
    -- Default (self) view, lines 472-562.
    let selfNode := selfNodeOf s.currentUser
    if s.isTransitioningBack then ([selfNode], [])
    else
      let filtered := filteredRels s.relationships s.filters
      let a := relLoop s.currentUser.id s.visibleConnectionCount filtered
        [s.currentUser.id] 0
      let b := pendLoop s.currentUser.id s.visibleConnectionCount
        (pendingOutgoing s.requests) a.added a.cnt
      (selfNode :: (a.nodes ++ b.nodes), a.edges ++ b.edges)

/-! ## SQL model

The database side of the repository (schema `part_000`): the `users`,
`relationship_requests` and `relationships` tables and the
`accept_relationship_request` plpgsql function. Columns that the modelled
function neither reads nor writes (emails, timestamps with defaults,
`strength`, `last_interaction`, `verified_at`) are omitted from the row
types. -/

/-- A `users` row (the columns read/written by
`accept_relationship_request`). -/
structure DbUser where
  id : String
  contribution_score : Int
deriving DecidableEq, Repr

/-- A `relationship_requests` row. -/
structure DbRequest where
  id : String
  from_user_id : String
  to_phone_hash : String
  to_user_id : Option String
  to_name : String
  relationship_type : String
  hide_reason : Bool
  status : Status
  updated_at : String
deriving DecidableEq, Repr

/-- A `relationships` row (the columns the INSERT provides; the remaining
columns take their defaults). -/
structure DbRel where
  user_a : String
  user_b : String
  relationship_type : String
  hide_reason : Bool
deriving DecidableEq, Repr

/-- The database state touched by `accept_relationship_request`. -/
structure DbState where
  users : List DbUser
  requests : List DbRequest
  relationships : List DbRel
deriving DecidableEq, Repr

/-- The relationship row inserted by `accept_relationship_request`
(schema `part_000` lines 115-121): canonically ordered pair via
`LEAST`/`GREATEST`. -/
def acceptedDbRel (req : DbRequest) (authUid : String) : DbRel :=
  { user_a := uuidLeast req.from_user_id authUid
    user_b := uuidGreatest req.from_user_id authUid
    relationship_type := req.relationship_type
    hide_reason := req.hide_reason }

/-- `ON CONFLICT (user_a, user_b) DO NOTHING` test: a row with this ordered
pair already exists. -/
def pairExists (rels : List DbRel) (ua ub : String) : Bool :=
  rels.any (fun rel => decide (rel.user_a = ua) && decide (rel.user_b = ub))

/-- The SQL function `accept_relationship_request(request_id)`
(schema `part_000` lines 97-130), executed with `auth.uid() = authUid` at
time `now`: select the request; if absent return false; else mark it
accepted, insert the relationship with `LEAST`/`GREATEST` canonical pair
order under `ON CONFLICT (user_a, user_b) DO NOTHING`, and increment both
parties' contribution scores. -/
def accept_relationship_request (db : DbState) (authUid request_id now : String) :
    DbState × Bool :=
  match db.requests.find? (fun r => decide (r.id = request_id)) with
  | none => (db, false)
  | some req =>
    let requests := db.requests.map (fun r =>
      if r.id = request_id then
        { r with status := Status.accepted, to_user_id := some authUid,
                 updated_at := now }
      else r)
    let newRel := acceptedDbRel req authUid
    let relationships :=
      if pairExists db.relationships newRel.user_a newRel.user_b then
        db.relationships
      else db.relationships ++ [newRel]
    let users1 := db.users.map (fun u =>
      if u.id = req.from_user_id then
        { u with contribution_score := u.contribution_score + 1 }
      else u)
    let users2 := users1.map (fun u =>
      if u.id = authUid then
        { u with contribution_score := u.contribution_score + 1 }
      else u)
    ({ users := users2, requests := requests, relationships := relationships },
     true)

/-- Score of the user with the given id, as read back from a `users` list. -/
def lookupScore (users : List DbUser) (uid : String) : Option Int :=
  (users.find? (fun u => decide (u.id = uid))).map (fun u => u.contribution_score)

/-- The `get_network_depth(user_id)` SQL function (schema `part_000`
lines 133-150): count relationships touching the user, then tier. -/
def get_network_depth (rels : List DbRel) (user_id : String) : Nat :=
  get_network_depth_tier ((rels.filter (fun r =>
    decide (r.user_a = user_id) || decide (r.user_b = user_id))).length)

/-- Unordered-pair uniqueness of a relationships table: no two rows carry the
same ordered `(user_a, user_b)` pair (with canonical storage both parties'
inserts collide on this pair). -/
def PairUnique (rels : List DbRel) : Prop :=
  rels.Pairwise (fun r1 r2 => ¬(r1.user_a = r2.user_a ∧ r1.user_b = r2.user_b))

/-! ## Candidate nodes

The node a relationship / pending request would contribute to the default
view if neither the reveal budget nor deduplication skipped it; used to state
the order/budget properties of the projector. -/

/-- Counterpart node candidate of a verified relationship (`App.tsx`
lines 505-518): present exactly when `user_b_data` is. -/
def candRelNode (meId : String) (rel : Relationship) : Option GraphNode :=
  rel.user_b_data.map (fun otherUser =>
    { id := if rel.user_a = meId then rel.user_b else rel.user_a
      label := otherUser.name
      title := some rel.relationship_type
      colorBackground := "#007AFF", colorBorder := "#007AFF", size := 38
      fontSize := none, fontColor := none, isCurrentUser := false })

/-- Placeholder node candidate of a pending outgoing request (`App.tsx`
lines 536-548): present exactly when `to_name` is non-empty. -/
def candPendNode (req : RelationshipRequest) : Option GraphNode :=
  if req.to_name ≠ "" then
    some { id := "pending-" ++ req.id, label := req.to_name
           title := some ("Pending: " ++ req.relationship_type)
           colorBackground := "#cccccc", colorBorder := "#cccccc", size := 32
           fontSize := none, fontColor := none, isCurrentUser := false }
  else none

/-! ## Concrete instances

Small concrete states used by counterexamples and witnesses. -/

/-- A user with only id and name set. -/
def mkUser (id name : String) : User :=
  { id := id, email := "", name := name, phone_hash := none, avatar_url := none,
    contribution_score := 0, created_at := "", updated_at := "" }

/-- A request with the given id, sender, status and direction. -/
def mkReq (id fromId : String) (st : Status) (dir : Direction) :
    RelationshipRequest :=
  { id := id, from_user_id := fromId, to_phone_hash := "", to_user_id := none,
    to_name := "Target", from_name := some "Alice",
    relationship_type := "Friend", hide_reason := false, status := st,
    direction := dir, created_at := "", updated_at := "" }

/-- A relationship with embedded counterpart data. -/
def mkRel (id ua ub name : String) (hidden : Bool) (li : Option CivilDate) :
    Relationship :=
  { id := id, user_a := ua, user_b := ub, relationship_type := "Friend",
    hide_reason := hidden, strength := 5, last_interaction := li,
    verified_at := "", created_at := "", user_b_data := some (mkUser ub name) }

/-- The initial filter state of `App.tsx` (lines 105-110). -/
def baseFilters : GraphFilters :=
  { searchQuery := "", showHidden := false, minStrength := 1, maxStrength := 10 }

/-- A default-view app state over the given user, relationships and
requests. -/
def mkState (u : User) (rels : List Relationship)
    (reqs : List RelationshipRequest) : AppState :=
  { currentUser := u, relationships := rels, requests := reqs,
    filters := baseFilters, expandedFriendId := none,
    isTransitioningBack := false, visibleConnectionCount := 100,
    selectedConnection := none, showSelfProfile := false }

/-- Viewer whose id is lexicographically larger than the sender id `"a"`. -/
def stateC1 : AppState :=
  mkState (mkUser "b" "You") [] [mkReq "r1" "a" Status.pending Direction.incoming]

/-- A state holding one already-accepted request. -/
def stateC3 : AppState :=
  mkState (mkUser "me" "You") [] [mkReq "r1" "alice" Status.accepted Direction.incoming]

/-- A state holding one accepted (non-pending, non-outgoing) request. -/
def stateC4 : AppState :=
  mkState (mkUser "me" "You") [] [mkReq "r1" "me" Status.accepted Direction.outgoing]

/-- A state whose single relationship is marked hidden, viewed with the
show-hidden toggle off. -/
def stateC5 : AppState :=
  mkState (mkUser "me" "You") [mkRel "rel1" "me" "u2" "Alice" true none] []

/-- Evaluation date for the fading counterexample. -/
def dNow : CivilDate := { year := 2026, month := 7, day := 30 }

/-- A last-interaction date 91 days before `dNow` but not yet three calendar
months old. -/
def dOld : CivilDate := { year := 2026, month := 4, day := 30 }

/-- A relationship whose last interaction is 91 days old. -/
def relC7 : Relationship := mkRel "rel1" "me" "u2" "Alice" false (some dOld)

/-- A default-view state with two relationships and one pending outgoing
request. -/
def stateC8 : AppState :=
  { mkState (mkUser "me" "You")
      [mkRel "rel1" "me" "u2" "Alice" false none,
       mkRel "rel2" "me" "u3" "Bob" false none]
      [mkReq "p1" "me" Status.pending Direction.outgoing] with
    visibleConnectionCount := 2 }

/-- A default-view state with one relationship, for the round-trip witness. -/
def stateC9 : AppState :=
  mkState (mkUser "me" "You") [mkRel "rel1" "me" "u2" "Alice" false none] []

/-- A database with sender `"a"` (score 3), accepter `"b"` (score 7) and a
pending request from `"a"`. -/
def dbC2 : DbState :=
  { users := [{ id := "a", contribution_score := 3 },
              { id := "b", contribution_score := 7 }],
    requests := [{ id := "r1", from_user_id := "a", to_phone_hash := "",
                   to_user_id := none, to_name := "Bea",
                   relationship_type := "Friend", hide_reason := false,
                   status := Status.pending, updated_at := "" }],
    relationships := [] }

/-- An incoming-pending state for the acceptance witnesses. -/
def stateC2 : AppState :=
  mkState (mkUser "me" "You") [] [mkReq "r1" "alice" Status.pending Direction.incoming]

/-- Date parameter used by witnesses. -/
def d0 : CivilDate := { year := 2026, month := 1, day := 1 }

/-! ## Helper lemmas -/

/-- `charsLe` is total: two id strings are always comparable. -/
theorem charsLe_total (a b : List Char) (h : charsLe a b = false) :
    charsLe b a = true := by
  induction a generalizing b with
  | nil => simp [charsLe] at h
  | cons c cs ih =>
    cases b with
    | nil => simp [charsLe]
    | cons d ds =>
      simp only [charsLe] at h ⊢
      split at h
      · simp at h
      · split at h
        · next h1 h2 =>
          rw [if_neg (by omega), if_pos (by omega)]
          exact ih ds h
        · next h1 h2 => rw [if_pos (by omega)]

/-- `LEAST` is `≤` `GREATEST` in the id order. -/
theorem strLe_least_greatest (a b : String) :
    strLe (uuidLeast a b) (uuidGreatest a b) = true := by
  unfold uuidLeast uuidGreatest
  cases h : strLe a b with
  | true => simp only [if_true]; exact h
  | false =>
    simp only [h, Bool.false_eq_true, if_false]
    exact charsLe_total a.data b.data h

/-- Looking up a user id commutes mapping an id-preserving function over the
table. -/
theorem find_user_map_idpres (users : List DbUser) (f : DbUser → DbUser)
    (hf : ∀ u, (f u).id = u.id) (uid : String) :
    (users.map f).find? (fun u => decide (u.id = uid))
      = (users.find? (fun u => decide (u.id = uid))).map f := by
  induction users with
  | nil => rfl
  | cons u us ih =>
    by_cases h : u.id = uid
    · rw [List.map_cons, List.find?_cons_of_pos _ (by simp [hf, h]),
        List.find?_cons_of_pos _ (by simp [h]), Option.map_some']
    · rw [List.map_cons, List.find?_cons_of_neg _ (by simp [hf, h]),
        List.find?_cons_of_neg _ (by simp [h]), ih]

/-- Incrementing the score of `tgt` shows up in a lookup of `tgt`. -/
theorem lookupScore_bump_self (users : List DbUser) (tgt : String) :
    lookupScore (users.map (fun u =>
        if u.id = tgt then { u with contribution_score := u.contribution_score + 1 }
        else u)) tgt
      = (lookupScore users tgt).map (fun x => x + 1) := by
  unfold lookupScore
  rw [find_user_map_idpres _ _ (fun u => by split <;> rfl)]
  cases hf : users.find? (fun u => decide (u.id = tgt)) with
  | none => rfl
  | some u =>
    have hid : u.id = tgt := by have := List.find?_some hf; simpa using this
    simp [hid]

/-- Incrementing the score of `tgt` leaves lookups of other users alone. -/
theorem lookupScore_bump_other (users : List DbUser) (uid tgt : String)
    (h : uid ≠ tgt) :
    lookupScore (users.map (fun u =>
        if u.id = tgt then { u with contribution_score := u.contribution_score + 1 }
        else u)) uid
      = lookupScore users uid := by
  unfold lookupScore
  rw [find_user_map_idpres _ _ (fun u => by split <;> rfl)]
  cases hf : users.find? (fun u => decide (u.id = uid)) with
  | none => rfl
  | some u =>
    have hid : u.id = uid := by have := List.find?_some hf; simpa using this
    have : ¬ u.id = tgt := by rw [hid]; exact h
    simp [this]

/-! ## Claim theorems -/

/-- C6: for every relationship count `n`, the network depth is 1 below 2
relationships, 2 from 2 to 4, and 3 from 5 on; it is monotone in `n`; and
the SQL tier function computes the same tiers. -/
theorem c6_network_depth_tiers (n m : Nat) :
    (n < 2 → networkDepth n = 1) ∧
    (2 ≤ n → n ≤ 4 → networkDepth n = 2) ∧
    (5 ≤ n → networkDepth n = 3) ∧
    (m ≤ n → networkDepth m ≤ networkDepth n) ∧
    get_network_depth_tier n = networkDepth n := by
  refine ⟨fun h => ?_, fun h1 h2 => ?_, fun h => ?_, fun h => ?_, rfl⟩ <;>
    unfold networkDepth <;> split_ifs <;> omega

/-- C6 witness: the tiers at 1, 3 and 7 relationships, and monotonicity
between 2 and 6. -/
theorem c6_witness :
    networkDepth 1 = 1 ∧ networkDepth 3 = 2 ∧ networkDepth 7 = 3 ∧
    networkDepth 2 ≤ networkDepth 6 :=
  ⟨(c6_network_depth_tiers 1 0).1 (by decide),
   (c6_network_depth_tiers 3 0).2.1 (by decide) (by decide),
   (c6_network_depth_tiers 7 0).2.2.1 (by decide),
   (c6_network_depth_tiers 6 2).2.2.2.1 (by decide)⟩

/-- C4 (amended): `withdrawRequest` never fails and checks nothing: it
removes the request with the given id from the request list unconditionally,
regardless of its status or direction, leaving every other request and the
rest of the state untouched; the removed request is absent from the
resulting request set. -/
theorem c4_withdraw_unconditional_removal (s : AppState) (requestId : String) :
    (∀ r : RelationshipRequest,
      r ∈ (withdrawRequest s requestId).requests ↔
        r ∈ s.requests ∧ r.id ≠ requestId) ∧
    (withdrawRequest s requestId).relationships = s.relationships ∧
    (withdrawRequest s requestId).currentUser = s.currentUser := by
  refine ⟨fun r => ?_, rfl, rfl⟩
  simp [withdrawRequest, List.mem_filter]

/-- C4 counterexample: the only request of `stateC4` is `accepted`, yet
`withdrawRequest` does not fail: it removes the request. -/
theorem c4_counterexample :
    stateC4.requests.map (fun r => r.status) = [Status.accepted] ∧
    (withdrawRequest stateC4 "r1").requests = [] := by
  exact ⟨rfl, by decide⟩

/-- C4 witness: on `stateC4`, the request `mkReq "r1" ...` is gone after the
withdrawal. -/
theorem c4_witness :
    mkReq "r1" "me" Status.accepted Direction.outgoing ∉
      (withdrawRequest stateC4 "r1").requests :=
  fun hmem =>
    (((c4_withdraw_unconditional_removal stateC4 "r1").1
        (mkReq "r1" "me" Status.accepted Direction.outgoing)).mp hmem).2 rfl

/-- When the guard passes, `acceptIncomingRequest` performs exactly its three
updates. -/
theorem acceptIncomingRequest_eq (s : AppState)
    (rid ty relId now : String) (today : CivilDate) (req : RelationshipRequest)
    (hfind : s.requests.find? (fun r => decide (r.id = rid)) = some req)
    (h1 : req.status = Status.pending) (h2 : req.direction = Direction.incoming) :
    acceptIncomingRequest s rid ty relId now today =
      { s with
        relationships := s.relationships ++
          [acceptedRelationship s req ty relId now today]
        currentUser :=
          { s.currentUser with
            contribution_score := s.currentUser.contribution_score + 1 }
        requests := s.requests.map (fun r =>
          if r.id = rid then
            { r with status := Status.accepted, relationship_type := ty,
                     updated_at := now }
          else r) } := by
  unfold acceptIncomingRequest
  simp only [hfind]
  rw [if_pos ⟨h1, h2⟩]

/-- When the guard fails, `acceptIncomingRequest` is the identity. -/
theorem acceptIncomingRequest_eq_self (s : AppState)
    (rid ty relId now : String) (today : CivilDate) (req : RelationshipRequest)
    (hfind : s.requests.find? (fun r => decide (r.id = rid)) = some req)
    (h : ¬(req.status = Status.pending ∧ req.direction = Direction.incoming)) :
    acceptIncomingRequest s rid ty relId now today = s := by
  unfold acceptIncomingRequest
  simp only [hfind]
  rw [if_neg h]

/-- When the guard passes, `simulateAcceptOutgoing` performs exactly its
three updates. -/
theorem simulateAcceptOutgoing_eq (s : AppState)
    (rid oid relId now : String) (today : CivilDate) (req : RelationshipRequest)
    (hfind : s.requests.find? (fun r => decide (r.id = rid)) = some req)
    (h1 : req.status = Status.pending) (h2 : req.direction = Direction.outgoing) :
    simulateAcceptOutgoing s rid oid relId now today =
      { s with
        relationships := s.relationships ++
          [simulatedRelationship s req oid relId now today]
        currentUser :=
          { s.currentUser with
            contribution_score := s.currentUser.contribution_score + 1 }
        requests := s.requests.map (fun r =>
          if r.id = rid then
            { r with status := Status.accepted, updated_at := now }
          else r) } := by
  unfold simulateAcceptOutgoing
  simp only [hfind]
  rw [if_pos ⟨h1, h2⟩]

/-- When the guard fails, `simulateAcceptOutgoing` is the identity. -/
theorem simulateAcceptOutgoing_eq_self (s : AppState)
    (rid oid relId now : String) (today : CivilDate) (req : RelationshipRequest)
    (hfind : s.requests.find? (fun r => decide (r.id = rid)) = some req)
    (h : ¬(req.status = Status.pending ∧ req.direction = Direction.outgoing)) :
    simulateAcceptOutgoing s rid oid relId now today = s := by
  unfold simulateAcceptOutgoing
  simp only [hfind]
  rw [if_neg h]

/-- C3 (amended): the two acceptance operations are guarded — a request that
is not pending (or has the wrong direction) leaves the state unchanged, so
from `pending` the only accept-transition is to `accepted`; but
`declineRequest` is unguarded: it maps the matched request to `declined`
whatever its current status was, so `accepted` is not immutable under
decline. -/
theorem c3_accept_guarded_decline_overwrites :
    (∀ (s : AppState) (rid ty relId now : String) (today : CivilDate)
        (req : RelationshipRequest),
      s.requests.find? (fun r => decide (r.id = rid)) = some req →
      req.status ≠ Status.pending →
      acceptIncomingRequest s rid ty relId now today = s) ∧
    (∀ (s : AppState) (rid oid relId now : String) (today : CivilDate)
        (req : RelationshipRequest),
      s.requests.find? (fun r => decide (r.id = rid)) = some req →
      req.status ≠ Status.pending →
      simulateAcceptOutgoing s rid oid relId now today = s) ∧
    (∀ (s : AppState) (rid now : String) (r' : RelationshipRequest),
      r' ∈ (declineRequest s rid now).requests →
      (r'.id = rid → r'.status = Status.declined) ∧
      (r'.id ≠ rid → r' ∈ s.requests)) := by
  refine ⟨?_, ?_, ?_⟩
  · intro s rid ty relId now today req hfind hst
    exact acceptIncomingRequest_eq_self s rid ty relId now today req hfind
      (fun hand => hst hand.1)
  · intro s rid oid relId now today req hfind hst
    exact simulateAcceptOutgoing_eq_self s rid oid relId now today req hfind
      (fun hand => hst hand.1)
  · intro s rid now r' hmem
    simp only [declineRequest, List.mem_map] at hmem
    obtain ⟨r, hr, hfr⟩ := hmem
    by_cases h : r.id = rid
    · subst hfr
      rw [if_pos h]
      exact ⟨fun _ => rfl, fun hne => absurd h hne⟩
    · subst hfr
      rw [if_neg h]
      exact ⟨fun hid => absurd hid h, fun _ => hr⟩

/-- C3 counterexample: the only request of `stateC3` is already `accepted`;
`declineRequest` nevertheless flips its status to `declined`, contradicting
the claim that declining an accepted request leaves it accepted. -/
theorem c3_counterexample :
    stateC3.requests.map (fun r => r.status) = [Status.accepted] ∧
    (declineRequest stateC3 "r1" "t").requests.map (fun r => r.status)
      = [Status.declined] := by
  exact ⟨rfl, by decide⟩

/-- C3 witness: accepting the already-accepted request of `stateC3` leaves
the state unchanged, and after declining, the surviving request with id
`"r1"` is declined. -/
theorem c3_witness :
    acceptIncomingRequest stateC3 "r1" "Coworker" "rel1" "t" d0 = stateC3 ∧
    ({ mkReq "r1" "alice" Status.accepted Direction.incoming with
        status := Status.declined, updated_at := "t" } :
      RelationshipRequest).status = Status.declined :=
  ⟨c3_accept_guarded_decline_overwrites.1 stateC3 "r1" "Coworker" "rel1" "t" d0
      (mkReq "r1" "alice" Status.accepted Direction.incoming) (by decide)
      (by decide),
   (c3_accept_guarded_decline_overwrites.2.2 stateC3 "r1" "t"
      { mkReq "r1" "alice" Status.accepted Direction.incoming with
        status := Status.declined, updated_at := "t" }
      (by decide)).1 rfl⟩

/-- Any relationship present after `acceptIncomingRequest` is either old or
the freshly appended one, whose `user_a` is the current user. -/
theorem accept_mem_relationships (s : AppState) (rid ty relId now : String)
    (today : CivilDate) (r : Relationship)
    (hmem : r ∈ (acceptIncomingRequest s rid ty relId now today).relationships) :
    r ∈ s.relationships ∨
      (r.user_a = s.currentUser.id ∧
        ∃ req ∈ s.requests, req.id = rid ∧ r.user_b = req.from_user_id) := by
  cases hfind : s.requests.find? (fun r => decide (r.id = rid)) with
  | none =>
    left
    unfold acceptIncomingRequest at hmem
    rwa [hfind] at hmem
  | some req =>
    by_cases hg : req.status = Status.pending ∧ req.direction = Direction.incoming
    · rw [acceptIncomingRequest_eq s rid ty relId now today req hfind hg.1 hg.2]
        at hmem
      rcases List.mem_append.mp hmem with h | h
      · exact Or.inl h
      · right
        rw [List.mem_singleton] at h
        subst h
        refine ⟨rfl, req, List.mem_of_find?_eq_some hfind, ?_, rfl⟩
        have := List.find?_some hfind
        simpa using this
    · rw [acceptIncomingRequest_eq_self s rid ty relId now today req hfind hg]
        at hmem
      exact Or.inl hmem

/-- Any relationship present after `simulateAcceptOutgoing` is either old or
the freshly appended one, whose `user_a` is the current user. -/
theorem simulate_mem_relationships (s : AppState) (rid oid relId now : String)
    (today : CivilDate) (r : Relationship)
    (hmem : r ∈ (simulateAcceptOutgoing s rid oid relId now today).relationships) :
    r ∈ s.relationships ∨ (r.user_a = s.currentUser.id ∧ r.user_b = oid) := by
  cases hfind : s.requests.find? (fun r => decide (r.id = rid)) with
  | none =>
    left
    unfold simulateAcceptOutgoing at hmem
    rwa [hfind] at hmem
  | some req =>
    by_cases hg : req.status = Status.pending ∧ req.direction = Direction.outgoing
    · rw [simulateAcceptOutgoing_eq s rid oid relId now today req hfind hg.1 hg.2]
        at hmem
      rcases List.mem_append.mp hmem with h | h
      · exact Or.inl h
      · right
        rw [List.mem_singleton] at h
        subst h
        exact ⟨rfl, rfl⟩
    · rw [simulateAcceptOutgoing_eq_self s rid oid relId now today req hfind hg]
        at hmem
      exact Or.inl hmem

/-- C10: every relationship present after a local acceptance
(`acceptIncomingRequest` or `simulateAcceptOutgoing`) was either already
stored or has `user_a` equal to the current user's id and `user_b` equal to
the other party (the request sender, or the freshly generated counterpart
id), whatever the direction of the accepted request. -/
theorem c10_local_accept_user_a_is_viewer :
    (∀ (s : AppState) (rid ty relId now : String) (today : CivilDate)
        (r : Relationship),
      r ∈ (acceptIncomingRequest s rid ty relId now today).relationships →
      r ∈ s.relationships ∨
        (r.user_a = s.currentUser.id ∧
          ∃ req ∈ s.requests, req.id = rid ∧ r.user_b = req.from_user_id)) ∧
    (∀ (s : AppState) (rid oid relId now : String) (today : CivilDate)
        (r : Relationship),
      r ∈ (simulateAcceptOutgoing s rid oid relId now today).relationships →
      r ∈ s.relationships ∨ (r.user_a = s.currentUser.id ∧ r.user_b = oid)) :=
  ⟨fun s rid ty relId now today r hmem =>
      accept_mem_relationships s rid ty relId now today r hmem,
   fun s rid oid relId now today r hmem =>
      simulate_mem_relationships s rid oid relId now today r hmem⟩

/-- C10 witness: accepting the pending incoming request of `stateC2` stores a
relationship, and that relationship has `user_a = "me"`. -/
theorem c10_witness :
    acceptedRelationship stateC2
        (mkReq "r1" "alice" Status.pending Direction.incoming)
        "Coworker" "rel1" "t" d0
      ∈ (acceptIncomingRequest stateC2 "r1" "Coworker" "rel1" "t" d0).relationships
    ∧ ((acceptedRelationship stateC2
        (mkReq "r1" "alice" Status.pending Direction.incoming)
        "Coworker" "rel1" "t" d0).user_a = "me"
      ∨ (acceptedRelationship stateC2
          (mkReq "r1" "alice" Status.pending Direction.incoming)
          "Coworker" "rel1" "t" d0) ∈ stateC2.relationships) :=
  have hmem : acceptedRelationship stateC2
      (mkReq "r1" "alice" Status.pending Direction.incoming)
      "Coworker" "rel1" "t" d0
      ∈ (acceptIncomingRequest stateC2 "r1" "Coworker" "rel1" "t" d0).relationships := by
    rw [acceptIncomingRequest_eq stateC2 "r1" "Coworker" "rel1" "t" d0
      (mkReq "r1" "alice" Status.pending Direction.incoming) (by decide) rfl rfl]
    exact List.mem_append_right _ (List.mem_singleton_self _)
  ⟨hmem,
   match c10_local_accept_user_a_is_viewer.1 stateC2 "r1" "Coworker" "rel1" "t" d0
       _ hmem with
   | Or.inl h => Or.inr h
   | Or.inr h => Or.inl h.1⟩

/-- When the request id is absent, `accept_relationship_request` returns the
database unchanged with `false`. -/
theorem accept_relationship_request_none (db : DbState)
    (authUid rid now : String)
    (hfind : db.requests.find? (fun r => decide (r.id = rid)) = none) :
    accept_relationship_request db authUid rid now = (db, false) := by
  unfold accept_relationship_request
  simp only [hfind]

/-- The `users` table after a successful `accept_relationship_request`:
both score increments, sender first. -/
theorem accept_relationship_request_users (db : DbState)
    (authUid rid now : String) (req : DbRequest)
    (hfind : db.requests.find? (fun r => decide (r.id = rid)) = some req) :
    (accept_relationship_request db authUid rid now).1.users
      = (db.users.map (fun u =>
          if u.id = req.from_user_id then
            { u with contribution_score := u.contribution_score + 1 }
          else u)).map (fun u =>
          if u.id = authUid then
            { u with contribution_score := u.contribution_score + 1 }
          else u) := by
  unfold accept_relationship_request
  simp only [hfind]

/-- The `relationships` table after a successful
`accept_relationship_request`: conditional insert of the canonical row. -/
theorem accept_relationship_request_rels (db : DbState)
    (authUid rid now : String) (req : DbRequest)
    (hfind : db.requests.find? (fun r => decide (r.id = rid)) = some req) :
    (accept_relationship_request db authUid rid now).1.relationships
      = if pairExists db.relationships (acceptedDbRel req authUid).user_a
          (acceptedDbRel req authUid).user_b then db.relationships
        else db.relationships ++ [acceptedDbRel req authUid] := by
  unfold accept_relationship_request
  simp only [hfind]

/-- C2: accepting a pending incoming request with a chosen type appends a
relationship carrying the viewer's chosen type (not the sender's), marks the
request `accepted` (also restamping its type to the chosen one), and bumps
the accepter's local score by 1; on the database side
`accept_relationship_request` increments the contribution scores of both the
sender and the accepter by 1. -/
theorem c2_accept_type_status_scores :
    (∀ (s : AppState) (rid ty relId now : String) (today : CivilDate)
        (req : RelationshipRequest),
      s.requests.find? (fun r => decide (r.id = rid)) = some req →
      req.status = Status.pending → req.direction = Direction.incoming →
      ((acceptIncomingRequest s rid ty relId now today).relationships
          = s.relationships ++ [acceptedRelationship s req ty relId now today] ∧
        (acceptedRelationship s req ty relId now today).relationship_type = ty) ∧
      (acceptIncomingRequest s rid ty relId now today).currentUser.contribution_score
          = s.currentUser.contribution_score + 1 ∧
      (∀ r' ∈ (acceptIncomingRequest s rid ty relId now today).requests,
        r'.id = rid → r'.status = Status.accepted ∧ r'.relationship_type = ty)) ∧
    (∀ (db : DbState) (authUid rid now : String) (req : DbRequest),
      db.requests.find? (fun r => decide (r.id = rid)) = some req →
      req.from_user_id ≠ authUid →
      lookupScore (accept_relationship_request db authUid rid now).1.users
          req.from_user_id
        = (lookupScore db.users req.from_user_id).map (fun x => x + 1) ∧
      lookupScore (accept_relationship_request db authUid rid now).1.users authUid
        = (lookupScore db.users authUid).map (fun x => x + 1)) := by
  constructor
  · intro s rid ty relId now today req hfind h1 h2
    rw [acceptIncomingRequest_eq s rid ty relId now today req hfind h1 h2]
    refine ⟨⟨rfl, rfl⟩, rfl, ?_⟩
    intro r' hmem hid
    have hmem' : r' ∈ s.requests.map (fun r =>
        if r.id = rid then
          { r with status := Status.accepted, relationship_type := ty,
                   updated_at := now }
        else r) := hmem
    obtain ⟨r, hr, hfr⟩ := List.mem_map.mp hmem'
    by_cases h : r.id = rid
    · subst hfr
      simp [h]
    · subst hfr
      rw [if_neg h] at hid
      exact absurd hid h
  · intro db authUid rid now req hfind hne
    rw [accept_relationship_request_users db authUid rid now req hfind]
    constructor
    · rw [lookupScore_bump_other _ req.from_user_id authUid hne]
      exact lookupScore_bump_self db.users req.from_user_id
    · rw [lookupScore_bump_self]
      rw [lookupScore_bump_other _ authUid req.from_user_id (Ne.symm hne)]

/-- C2 witness: on `stateC2` (pending incoming request from `"alice"`
originally typed `"Friend"`), accepting with chosen type `"Coworker"`
produces a relationship typed `"Coworker"`, bumps the accepter's score, and
on `dbC2` the SQL accept bumps both the sender's score (3 to 4) and the
accepter's score (7 to 8). -/
theorem c2_witness :
    (acceptIncomingRequest stateC2 "r1" "Coworker" "rel1" "t" d0).relationships
        = stateC2.relationships ++
          [acceptedRelationship stateC2
            (mkReq "r1" "alice" Status.pending Direction.incoming)
            "Coworker" "rel1" "t" d0] ∧
    (acceptIncomingRequest stateC2 "r1" "Coworker" "rel1" "t" d0).currentUser.contribution_score
        = stateC2.currentUser.contribution_score + 1 ∧
    lookupScore (accept_relationship_request dbC2 "b" "r1" "t2").1.users "a"
        = (lookupScore dbC2.users "a").map (fun x => x + 1) ∧
    lookupScore (accept_relationship_request dbC2 "b" "r1" "t2").1.users "b"
        = (lookupScore dbC2.users "b").map (fun x => x + 1) :=
  have hts := c2_accept_type_status_scores.1 stateC2 "r1" "Coworker" "rel1" "t" d0
    (mkReq "r1" "alice" Status.pending Direction.incoming) (by decide) rfl rfl
  have hdb := c2_accept_type_status_scores.2 dbC2 "b" "r1" "t2"
    { id := "r1", from_user_id := "a", to_phone_hash := "", to_user_id := none,
      to_name := "Bea", relationship_type := "Friend", hide_reason := false,
      status := Status.pending, updated_at := "" } (by decide) (by decide)
  ⟨hts.1.1, hts.2.1, hdb.1, hdb.2⟩

/-- C1 (amended): on the database path (`accept_relationship_request`) the
stored pair is canonical — `user_a = LEAST`, `user_b = GREATEST` of the two
ids under the total id order — and unordered-pair uniqueness is preserved by
the conflict-skipping insert; the local App.tsx acceptance paths do NOT
canonicalize: they always store `user_a` = the current user's id. -/
theorem c1_canonical_pair_sql_only :
    (∀ (db : DbState) (authUid rid now : String),
      PairUnique db.relationships →
      PairUnique (accept_relationship_request db authUid rid now).1.relationships ∧
      ∀ rel ∈ (accept_relationship_request db authUid rid now).1.relationships,
        rel ∈ db.relationships ∨
          (strLe rel.user_a rel.user_b = true ∧
            ∃ req, db.requests.find? (fun r => decide (r.id = rid)) = some req ∧
              rel = acceptedDbRel req authUid)) ∧
    (∀ (s : AppState) (rid ty relId now : String) (today : CivilDate)
        (r : Relationship),
      r ∈ (acceptIncomingRequest s rid ty relId now today).relationships →
      r ∈ s.relationships ∨ r.user_a = s.currentUser.id) := by
  constructor
  · intro db authUid rid now hPU
    cases hfind : db.requests.find? (fun r => decide (r.id = rid)) with
    | none =>
      rw [accept_relationship_request_none db authUid rid now hfind]
      exact ⟨hPU, fun rel hrel => Or.inl hrel⟩
    | some req =>
      rw [accept_relationship_request_rels db authUid rid now req hfind]
      by_cases hdup : pairExists db.relationships
          (acceptedDbRel req authUid).user_a (acceptedDbRel req authUid).user_b
          = true
      · rw [if_pos hdup]
        exact ⟨hPU, fun rel hrel => Or.inl hrel⟩
      · rw [if_neg hdup]
        have hfalse : pairExists db.relationships
            (acceptedDbRel req authUid).user_a (acceptedDbRel req authUid).user_b
            = false := Bool.eq_false_iff.mpr hdup
        unfold pairExists at hfalse
        rw [List.any_eq_false] at hfalse
        constructor
        · rw [PairUnique, List.pairwise_append]
          refine ⟨hPU, List.pairwise_singleton _ _, ?_⟩
          intro a ha b hb
          rw [List.mem_singleton] at hb
          subst hb
          intro hab
          exact hfalse a ha (by simp [hab.1, hab.2])
        · intro rel hrel
          rcases List.mem_append.mp hrel with h | h
          · exact Or.inl h
          · rw [List.mem_singleton] at h
            subst h
            exact Or.inr ⟨strLe_least_greatest _ _, req, rfl, rfl⟩
  · intro s rid ty relId now today r hmem
    rcases accept_mem_relationships s rid ty relId now today r hmem with h | h
    · exact Or.inl h
    · exact Or.inr h.1

/-- C1 counterexample: in `stateC1` the viewer's id is `"b"` and the sender's
id is `"a"`; accepting locally stores the pair `("b", "a")`, although the
canonical order would be `("a", "b")` — so the claim's canonical-order
invariant fails on `acceptIncomingRequest`. -/
theorem c1_counterexample :
    (acceptIncomingRequest stateC1 "r1" "Friend" "rel1" "t" d0).relationships.map
        (fun r => (r.user_a, r.user_b)) = [("b", "a")] ∧
    strLe "a" "b" = true ∧ ("a" : String) ≠ "b" := by
  refine ⟨by decide, by decide, by decide⟩

/-- C1 witness: the SQL accept on `dbC2` (sender `"a"`, accepter `"b"`)
yields a canonical, unique pair set. -/
theorem c1_witness :
    PairUnique (accept_relationship_request dbC2 "b" "r1" "t2").1.relationships ∧
    (accept_relationship_request dbC2 "b" "r1" "t2").1.relationships.map
        (fun r => (r.user_a, r.user_b)) = [("a", "b")] :=
  ⟨(c1_canonical_pair_sql_only.1 dbC2 "b" "r1" "t2" List.Pairwise.nil).1,
   by decide⟩

/-- C7 (amended): `fadingRelationships` keeps exactly the relationships whose
`lastInteraction` is null or whose date is strictly before the date three
calendar months (not 90 days) prior to the evaluation instant; every
relationship with null `lastInteraction` is always included. -/
theorem c7_fading_three_calendar_months (now : CivilDate) (timeOfDayMs : Nat)
    (rels : List Relationship) :
    (∀ r : Relationship,
      r ∈ fadingRelationships now timeOfDayMs rels ↔
        r ∈ rels ∧
          (r.last_interaction = none ∨
            ∃ d, r.last_interaction = some d ∧
              dateMs d < dateMs (threeMonthsBefore now) + timeOfDayMs)) ∧
    (∀ r ∈ rels, r.last_interaction = none →
      r ∈ fadingRelationships now timeOfDayMs rels) := by
  have hchar : ∀ r : Relationship,
      r ∈ fadingRelationships now timeOfDayMs rels ↔
        r ∈ rels ∧
          (r.last_interaction = none ∨
            ∃ d, r.last_interaction = some d ∧
              dateMs d < dateMs (threeMonthsBefore now) + timeOfDayMs) := by
    intro r
    unfold fadingRelationships
    rw [List.mem_filter]
    constructor
    · rintro ⟨hr, hp⟩
      refine ⟨hr, ?_⟩
      cases hli : r.last_interaction with
      | none => exact Or.inl rfl
      | some d =>
        right
        refine ⟨d, rfl, ?_⟩
        rw [hli] at hp
        simpa using hp
    · rintro ⟨hr, hp⟩
      refine ⟨hr, ?_⟩
      cases hli : r.last_interaction with
      | none => simp
      | some d =>
        rcases hp with h | ⟨d', hd', hlt⟩
        · rw [h] at hli; cases hli
        · rw [hd'] at hli
          cases hli
          simpa using hlt
  exact ⟨hchar, fun r hr hnone => (hchar r).mpr ⟨hr, Or.inl hnone⟩⟩

/-- C7 counterexample: evaluated at midnight of 2026-07-30, the relationship
`relC7` whose last interaction was 2026-04-30 is exactly 91 days old — older
than 90 days, so the claim says it is fading — yet `fadingRelationships`
excludes it, because 2026-04-30 is not strictly before the three-calendar-
month threshold 2026-04-30. -/
theorem c7_counterexample :
    fadingRelationships dNow 0 [relC7] = [] ∧
    dateMs dNow + 0 = dateMs dOld + 91 * msPerDay := by
  exact ⟨by decide, by decide⟩

/-- C7 witness: a null-interaction relationship is always fading, and the
membership characterization holds on a two-element list. -/
theorem c7_witness :
    mkRel "rel9" "me" "u9" "Nia" false none
      ∈ fadingRelationships dNow 0
        [relC7, mkRel "rel9" "me" "u9" "Nia" false none] :=
  (c7_fading_three_calendar_months dNow 0
      [relC7, mkRel "rel9" "me" "u9" "Nia" false none]).2
    (mkRel "rel9" "me" "u9" "Nia" false none)
    (by decide) rfl

/-- C5 (amended): the default view's candidate set is gated only by the
case-insensitive substring search on the counterpart's display name (a
relationship without embedded counterpart data passes any query); the
"show hidden" toggle, although present in the filter state, is not consulted
by `buildGraphData`, so hidden relationships still contribute nodes while it
is off. -/
theorem c5_candidate_set_search_only (rels : List Relationship)
    (f : GraphFilters) :
    (∀ rel : Relationship,
      rel ∈ filteredRels rels f ↔
        rel ∈ rels ∧
          (f.searchQuery = "" ∨ rel.user_b_data = none ∨
            ∃ u, rel.user_b_data = some u ∧
              jsIncludes (jsToLower u.name) (jsToLower f.searchQuery) = true)) ∧
    (∀ (hidden : Bool) (minS maxS : Int),
      filteredRels rels
          { searchQuery := f.searchQuery, showHidden := hidden,
            minStrength := minS, maxStrength := maxS }
        = filteredRels rels f) := by
  constructor
  · intro rel
    unfold filteredRels
    rw [List.mem_filter]
    constructor
    · rintro ⟨hr, hp⟩
      refine ⟨hr, ?_⟩
      by_cases hq : f.searchQuery = ""
      · exact Or.inl hq
      · rw [if_pos hq] at hp
        cases hub : rel.user_b_data with
        | none => exact Or.inr (Or.inl rfl)
        | some u =>
          rw [hub] at hp
          exact Or.inr (Or.inr ⟨u, rfl, hp⟩)
    · rintro ⟨hr, hp⟩
      refine ⟨hr, ?_⟩
      by_cases hq : f.searchQuery = ""
      · rw [if_neg (by simp [hq])]
      · rw [if_pos hq]
        rcases hp with h | h | ⟨u, hu, hinc⟩
        · exact absurd h hq
        · rw [h]
        · rw [hu]
          exact hinc
  · intro hidden minS maxS
    rfl

/-- C5 counterexample: the single relationship of `stateC5` is marked hidden
and the toggle is off (`showHidden = false`), yet the projector still emits
its counterpart node `"u2"`. -/
theorem c5_counterexample :
    stateC5.filters.showHidden = false ∧
    (∀ r ∈ stateC5.relationships, r.hide_reason = true) ∧
    (buildGraphData stateC5).1.map (fun n => n.id) = ["me", "u2"] := by
  refine ⟨rfl, by decide, by decide⟩

/-- C5 witness: on `stateC5`'s relationship list, the hidden relationship is
in the candidate set (empty query) irrespective of the toggle. -/
theorem c5_witness :
    mkRel "rel1" "me" "u2" "Alice" true none
      ∈ filteredRels stateC5.relationships stateC5.filters ∧
    filteredRels stateC5.relationships
        { searchQuery := "", showHidden := true, minStrength := 1,
          maxStrength := 10 }
      = filteredRels stateC5.relationships stateC5.filters :=
  ⟨((c5_candidate_set_search_only stateC5.relationships stateC5.filters).1
      (mkRel "rel1" "me" "u2" "Alice" true none)).mpr
    ⟨by decide, Or.inl rfl⟩,
   (c5_candidate_set_search_only stateC5.relationships stateC5.filters).2
     true 1 10⟩


/-- The nodes emitted by the relationship loop are, in order, a sublist of
the candidate nodes of the relationship list. -/
theorem relLoop_nodes_sublist (meId : String) (b : Nat)
    (rels : List Relationship) (added : List String) (cnt : Nat) :
    (relLoop meId b rels added cnt).nodes.Sublist
      (rels.filterMap (candRelNode meId)) := by
  induction rels generalizing added cnt with
  | nil => simp [relLoop]
  | cons rel rest ih =>
    have hskip : ∀ (added' : List String) (cnt' : Nat),
        (relLoop meId b rest added' cnt').nodes.Sublist
          ((rel :: rest).filterMap (candRelNode meId)) := by
      intro added' cnt'
      refine (ih added' cnt').trans ?_
      cases hc : candRelNode meId rel with
      | none =>
        rw [List.filterMap_cons_none hc]
      | some n =>
        rw [List.filterMap_cons_some hc]
        exact List.sublist_cons_self n _
    simp only [relLoop]
    by_cases hb : b ≤ cnt
    · rw [if_pos hb]
      exact hskip added cnt
    · rw [if_neg hb]
      cases hub : rel.user_b_data with
      | none => exact hskip added cnt
      | some otherUser =>
        dsimp only
        by_cases hmem : (if rel.user_a = meId then rel.user_b else rel.user_a) ∈ added
        · rw [if_pos hmem]
          exact hskip added cnt
        · rw [if_neg hmem]
          have hc : candRelNode meId rel = some
              { id := if rel.user_a = meId then rel.user_b else rel.user_a
                label := otherUser.name, title := some rel.relationship_type
                colorBackground := "#007AFF", colorBorder := "#007AFF"
                size := 38, fontSize := none, fontColor := none
                isCurrentUser := false } := by
            unfold candRelNode
            rw [hub]
            rfl
          rw [List.filterMap_cons_some hc]
          exact (ih _ _).cons₂ _

/-- The final counter of the relationship loop counts exactly the nodes it
appended. -/
theorem relLoop_cnt (meId : String) (b : Nat) (rels : List Relationship)
    (added : List String) (cnt : Nat) :
    (relLoop meId b rels added cnt).cnt
      = cnt + (relLoop meId b rels added cnt).nodes.length := by
  induction rels generalizing added cnt with
  | nil => simp [relLoop]
  | cons rel rest ih =>
    simp only [relLoop]
    by_cases hb : b ≤ cnt
    · rw [if_pos hb]
      exact ih added cnt
    · rw [if_neg hb]
      cases hub : rel.user_b_data with
      | none => exact ih added cnt
      | some otherUser =>
        dsimp only
        by_cases hmem : (if rel.user_a = meId then rel.user_b else rel.user_a) ∈ added
        · rw [if_pos hmem]
          exact ih added cnt
        · rw [if_neg hmem]
          dsimp only
          rw [List.length_cons, ih _ (cnt + 1)]
          omega

/-- The relationship loop never pushes the counter beyond the budget. -/
theorem relLoop_cnt_le (meId : String) (b : Nat) (rels : List Relationship)
    (added : List String) (cnt : Nat) (h : cnt ≤ b) :
    (relLoop meId b rels added cnt).cnt ≤ b := by
  induction rels generalizing added cnt with
  | nil => exact h
  | cons rel rest ih =>
    simp only [relLoop]
    by_cases hb : b ≤ cnt
    · rw [if_pos hb]
      exact ih added cnt h
    · rw [if_neg hb]
      cases hub : rel.user_b_data with
      | none => exact ih added cnt h
      | some otherUser =>
        dsimp only
        by_cases hmem : (if rel.user_a = meId then rel.user_b else rel.user_a) ∈ added
        · rw [if_pos hmem]
          exact ih added cnt h
        · rw [if_neg hmem]
          exact ih _ (cnt + 1) (by omega)

/-- With a budget at least `cnt` plus the number of remaining items, the
relationship loop never skips, so its output does not depend on the budget. -/
theorem relLoop_budget_free (meId : String) (b1 b2 : Nat)
    (rels : List Relationship) (added : List String) (cnt : Nat)
    (h1 : cnt + rels.length ≤ b1) (h2 : cnt + rels.length ≤ b2) :
    relLoop meId b1 rels added cnt = relLoop meId b2 rels added cnt := by
  induction rels generalizing added cnt with
  | nil => rfl
  | cons rel rest ih =>
    rw [List.length_cons] at h1 h2
    have hb1 : ¬ b1 ≤ cnt := by omega
    have hb2 : ¬ b2 ≤ cnt := by omega
    simp only [relLoop]
    rw [if_neg hb1, if_neg hb2]
    cases hub : rel.user_b_data with
    | none => rw [ih added cnt (by omega) (by omega)]
    | some otherUser =>
      dsimp only
      by_cases hmem : (if rel.user_a = meId then rel.user_b else rel.user_a) ∈ added
      · rw [if_pos hmem, if_pos hmem, ih added cnt (by omega) (by omega)]
      · rw [if_neg hmem, if_neg hmem, ih _ (cnt + 1) (by omega) (by omega)]

/-- The nodes emitted by the pending-request loop are, in order, a sublist of
the candidate placeholder nodes of the request list. -/
theorem pendLoop_nodes_sublist (meId : String) (b : Nat)
    (reqs : List RelationshipRequest) (added : List String) (cnt : Nat) :
    (pendLoop meId b reqs added cnt).nodes.Sublist
      (reqs.filterMap candPendNode) := by
  induction reqs generalizing added cnt with
  | nil => simp [pendLoop]
  | cons req rest ih =>
    have hskip : ∀ (added' : List String) (cnt' : Nat),
        (pendLoop meId b rest added' cnt').nodes.Sublist
          ((req :: rest).filterMap candPendNode) := by
      intro added' cnt'
      refine (ih added' cnt').trans ?_
      cases hc : candPendNode req with
      | none =>
        rw [List.filterMap_cons_none hc]
      | some n =>
        rw [List.filterMap_cons_some hc]
        exact List.sublist_cons_self n _
    simp only [pendLoop]
    by_cases hb : b ≤ cnt
    · rw [if_pos hb]
      exact hskip added cnt
    · rw [if_neg hb]
      by_cases hcond : "pending-" ++ req.id ∉ added ∧ req.to_name ≠ ""
      · rw [if_pos hcond]
        have hc : candPendNode req = some
            { id := "pending-" ++ req.id, label := req.to_name
              title := some ("Pending: " ++ req.relationship_type)
              colorBackground := "#cccccc", colorBorder := "#cccccc"
              size := 32, fontSize := none, fontColor := none
              isCurrentUser := false } := by
          unfold candPendNode
          rw [if_pos hcond.2]
        rw [List.filterMap_cons_some hc]
        exact (ih _ _).cons₂ _
      · rw [if_neg hcond]
        exact hskip added cnt

/-- The final counter of the pending loop counts exactly the nodes it
appended. -/
theorem pendLoop_cnt (meId : String) (b : Nat)
    (reqs : List RelationshipRequest) (added : List String) (cnt : Nat) :
    (pendLoop meId b reqs added cnt).cnt
      = cnt + (pendLoop meId b reqs added cnt).nodes.length := by
  induction reqs generalizing added cnt with
  | nil => simp [pendLoop]
  | cons req rest ih =>
    simp only [pendLoop]
    by_cases hb : b ≤ cnt
    · rw [if_pos hb]
      exact ih added cnt
    · rw [if_neg hb]
      by_cases hcond : "pending-" ++ req.id ∉ added ∧ req.to_name ≠ ""
      · rw [if_pos hcond]
        dsimp only
        rw [List.length_cons, ih _ (cnt + 1)]
        omega
      · rw [if_neg hcond]
        exact ih added cnt

/-- The pending loop never pushes the counter beyond the budget. -/
theorem pendLoop_cnt_le (meId : String) (b : Nat)
    (reqs : List RelationshipRequest) (added : List String) (cnt : Nat)
    (h : cnt ≤ b) :
    (pendLoop meId b reqs added cnt).cnt ≤ b := by
  induction reqs generalizing added cnt with
  | nil => exact h
  | cons req rest ih =>
    simp only [pendLoop]
    by_cases hb : b ≤ cnt
    · rw [if_pos hb]
      exact ih added cnt h
    · rw [if_neg hb]
      by_cases hcond : "pending-" ++ req.id ∉ added ∧ req.to_name ≠ ""
      · rw [if_pos hcond]
        exact ih _ (cnt + 1) (by omega)
      · rw [if_neg hcond]
        exact ih added cnt h

/-- With a budget at least `cnt` plus the number of remaining requests, the
pending loop does not depend on the budget. -/
theorem pendLoop_budget_free (meId : String) (b1 b2 : Nat)
    (reqs : List RelationshipRequest) (added : List String) (cnt : Nat)
    (h1 : cnt + reqs.length ≤ b1) (h2 : cnt + reqs.length ≤ b2) :
    pendLoop meId b1 reqs added cnt = pendLoop meId b2 reqs added cnt := by
  induction reqs generalizing added cnt with
  | nil => rfl
  | cons req rest ih =>
    rw [List.length_cons] at h1 h2
    have hb1 : ¬ b1 ≤ cnt := by omega
    have hb2 : ¬ b2 ≤ cnt := by omega
    simp only [pendLoop]
    rw [if_neg hb1, if_neg hb2]
    by_cases hcond : "pending-" ++ req.id ∉ added ∧ req.to_name ≠ ""
    · rw [if_pos hcond, if_pos hcond, ih _ (cnt + 1) (by omega) (by omega)]
    · rw [if_neg hcond, if_neg hcond, ih added cnt (by omega) (by omega)]

/-- C8: in the default view the projector emits the self node first and at
most `visibleConnectionCount` counterpart nodes after it: first nodes for
filtered verified relationships, as an order-preserving selection from the
relationship list, then placeholder nodes for pending outgoing requests, as
an order-preserving selection from the request list. -/
theorem c8_budget_and_stable_order (s : AppState)
    (hexp : s.expandedFriendId = none) :
    ∃ rn pn : List GraphNode,
      (buildGraphData s).1 = selfNodeOf s.currentUser :: (rn ++ pn) ∧
      rn.Sublist ((filteredRels s.relationships s.filters).filterMap
        (candRelNode s.currentUser.id)) ∧
      pn.Sublist ((pendingOutgoing s.requests).filterMap candPendNode) ∧
      rn.length + pn.length ≤ s.visibleConnectionCount := by
  unfold buildGraphData
  simp only [hexp]
  by_cases htr : s.isTransitioningBack = true
  · rw [if_pos htr]
    exact ⟨[], [], rfl, List.nil_sublist _, List.nil_sublist _, by simp⟩
  · rw [if_neg htr]
    dsimp only
    refine ⟨(relLoop s.currentUser.id s.visibleConnectionCount
        (filteredRels s.relationships s.filters) [s.currentUser.id] 0).nodes,
      (pendLoop s.currentUser.id s.visibleConnectionCount
        (pendingOutgoing s.requests)
        (relLoop s.currentUser.id s.visibleConnectionCount
          (filteredRels s.relationships s.filters) [s.currentUser.id] 0).added
        (relLoop s.currentUser.id s.visibleConnectionCount
          (filteredRels s.relationships s.filters) [s.currentUser.id] 0).cnt).nodes,
      rfl, relLoop_nodes_sublist _ _ _ _ _, pendLoop_nodes_sublist _ _ _ _ _, ?_⟩
    have hrc := relLoop_cnt s.currentUser.id s.visibleConnectionCount
      (filteredRels s.relationships s.filters) [s.currentUser.id] 0
    have hpc := pendLoop_cnt s.currentUser.id s.visibleConnectionCount
      (pendingOutgoing s.requests)
      (relLoop s.currentUser.id s.visibleConnectionCount
        (filteredRels s.relationships s.filters) [s.currentUser.id] 0).added
      (relLoop s.currentUser.id s.visibleConnectionCount
        (filteredRels s.relationships s.filters) [s.currentUser.id] 0).cnt
    have hple := pendLoop_cnt_le s.currentUser.id s.visibleConnectionCount
      (pendingOutgoing s.requests)
      (relLoop s.currentUser.id s.visibleConnectionCount
        (filteredRels s.relationships s.filters) [s.currentUser.id] 0).added
      (relLoop s.currentUser.id s.visibleConnectionCount
        (filteredRels s.relationships s.filters) [s.currentUser.id] 0).cnt
      (relLoop_cnt_le s.currentUser.id s.visibleConnectionCount
        (filteredRels s.relationships s.filters) [s.currentUser.id] 0
        (Nat.zero_le _))
    omega

/-- C8 witness: on `stateC8` (two relationships, one pending outgoing
request, reveal budget 2) the projector emits the self node plus at most two
counterpart nodes in relationship-then-pending order. -/
theorem c8_witness :
    stateC8.expandedFriendId = none ∧
    ∃ rn pn : List GraphNode,
      (buildGraphData stateC8).1 = selfNodeOf stateC8.currentUser :: (rn ++ pn) ∧
      rn.Sublist ((filteredRels stateC8.relationships stateC8.filters).filterMap
        (candRelNode stateC8.currentUser.id)) ∧
      pn.Sublist ((pendingOutgoing stateC8.requests).filterMap candPendNode) ∧
      rn.length + pn.length ≤ stateC8.visibleConnectionCount :=
  ⟨rfl, c8_budget_and_stable_order stateC8 rfl⟩

/-- In the default view, once the reveal budget covers the total connection
count, the projector's output no longer depends on the exact budget. -/
theorem buildGraphData_budget_free (s : AppState) (b1 b2 : Nat)
    (hexp : s.expandedFriendId = none)
    (h1 : totalConnections s ≤ b1) (h2 : totalConnections s ≤ b2) :
    buildGraphData { s with visibleConnectionCount := b1 }
      = buildGraphData { s with visibleConnectionCount := b2 } := by
  have hfl : (filteredRels s.relationships s.filters).length
      ≤ s.relationships.length := by
    unfold filteredRels
    exact List.length_filter_le _ _
  unfold totalConnections at h1 h2
  unfold buildGraphData
  simp only [hexp]
  by_cases htr : s.isTransitioningBack = true
  · rw [if_pos htr, if_pos htr]
  · rw [if_neg htr, if_neg htr]
    have hA : relLoop s.currentUser.id b1
        (filteredRels s.relationships s.filters) [s.currentUser.id] 0
        = relLoop s.currentUser.id b2
          (filteredRels s.relationships s.filters) [s.currentUser.id] 0 :=
      relLoop_budget_free s.currentUser.id b1 b2 _ _ 0 (by omega) (by omega)
    rw [hA]
    have hcnt := relLoop_cnt s.currentUser.id b2
      (filteredRels s.relationships s.filters) [s.currentUser.id] 0
    have hlen1 := (relLoop_nodes_sublist s.currentUser.id b2
      (filteredRels s.relationships s.filters) [s.currentUser.id] 0).length_le
    have hlen2 := List.length_filterMap_le (candRelNode s.currentUser.id)
      (filteredRels s.relationships s.filters)
    have hP : pendLoop s.currentUser.id b1 (pendingOutgoing s.requests)
        (relLoop s.currentUser.id b2
          (filteredRels s.relationships s.filters) [s.currentUser.id] 0).added
        (relLoop s.currentUser.id b2
          (filteredRels s.relationships s.filters) [s.currentUser.id] 0).cnt
        = pendLoop s.currentUser.id b2 (pendingOutgoing s.requests)
          (relLoop s.currentUser.id b2
            (filteredRels s.relationships s.filters) [s.currentUser.id] 0).added
          (relLoop s.currentUser.id b2
            (filteredRels s.relationships s.filters) [s.currentUser.id] 0).cnt :=
      pendLoop_budget_free s.currentUser.id b1 b2 _ _ _ (by omega) (by omega)
    rw [hP]

/-- `buildGraphData` does not read `selectedConnection` or
`showSelfProfile`. -/
theorem buildGraphData_ignores_panel_state (u : User)
    (rels : List Relationship) (reqs : List RelationshipRequest)
    (fl : GraphFilters) (exp : Option String) (tr : Bool) (vcc : Nat)
    (sel1 sel2 : Option Relationship) (ssp1 ssp2 : Bool) :
    buildGraphData (AppState.mk u rels reqs fl exp tr vcc sel1 ssp1)
      = buildGraphData (AppState.mk u rels reqs fl exp tr vcc sel2 ssp2) := rfl

/-- C9: from a default view whose reveal budget already covers the total
connection count, clicking a node that expands a verified peer and then
clicking it again (collapse), letting the collapse transition finish and the
reveal budget again reach the total count, reproduces exactly the
pre-expansion projector snapshot (same node and edge lists). -/
theorem c9_expand_collapse_round_trip (s : AppState) (nodeId : String)
    (b2 : Nat)
    (hexp : s.expandedFriendId = none)
    (htr : s.isTransitioningBack = false)
    (hbud : totalConnections s ≤ s.visibleConnectionCount)
    (hb2 : totalConnections s ≤ b2)
    (hclick : (handleNodeClick s nodeId).expandedFriendId ≠ none) :
    buildGraphData
        { finishTransition (handleNodeClick (handleNodeClick s nodeId) nodeId) with
          visibleConnectionCount := b2 }
      = buildGraphData s := by
  by_cases hme : nodeId = s.currentUser.id
  · exfalso
    apply hclick
    unfold handleNodeClick
    rw [if_pos hme]
    simp [hexp]
  by_cases hpre : (jsStartsWith nodeId "pending-" || jsStartsWith nodeId "fof-")
      = true
  · exfalso
    apply hclick
    unfold handleNodeClick
    rw [if_neg hme, if_pos hpre]
    exact hexp
  cases hfind : s.relationships.find? (fun r =>
      decide (r.user_a = nodeId) || decide (r.user_b = nodeId)) with
  | none =>
    exfalso
    apply hclick
    unfold handleNodeClick
    rw [if_neg hme, if_neg hpre, hfind]
    exact hexp
  | some rel =>
    have hs1 : handleNodeClick s nodeId =
        { s with
            showSelfProfile := false
            selectedConnection := some rel
            expandedFriendId :=
              some (if rel.user_a = s.currentUser.id then rel.user_b
                else rel.user_a) } := by
      unfold handleNodeClick
      rw [if_neg hme, if_neg hpre, hfind]
      dsimp only
      rw [if_neg (by rw [hexp]; simp)]
    have hs2 : handleNodeClick (handleNodeClick s nodeId) nodeId =
        { s with
            showSelfProfile := false
            selectedConnection := none
            isTransitioningBack := true
            expandedFriendId := none } := by
      rw [hs1]
      unfold handleNodeClick
      dsimp only
      rw [if_neg hme, if_neg hpre, hfind]
      dsimp only
      rw [if_pos rfl]
    rw [hs2]
    unfold finishTransition
    have hsplit : s = AppState.mk s.currentUser s.relationships s.requests
        s.filters none false s.visibleConnectionCount s.selectedConnection
        s.showSelfProfile := by
      rw [← hexp, ← htr]
    have hbf := buildGraphData_budget_free
      (AppState.mk s.currentUser s.relationships s.requests s.filters none
        false s.visibleConnectionCount s.selectedConnection s.showSelfProfile)
      b2 s.visibleConnectionCount rfl hb2 hbud
    exact ((buildGraphData_ignores_panel_state s.currentUser s.relationships
        s.requests s.filters none false b2 none s.selectedConnection
        false s.showSelfProfile).trans hbf).trans
      ((congrArg buildGraphData hsplit).symm)

/-- C9 witness: on `stateC9` (one verified relationship, budget 100),
expanding peer `"u2"` and collapsing again, then setting the reveal budget
to 5 (at least the total count 1), reproduces the original snapshot. -/
theorem c9_witness :
    totalConnections stateC9 ≤ stateC9.visibleConnectionCount ∧
    (handleNodeClick stateC9 "u2").expandedFriendId ≠ none ∧
    buildGraphData
        { finishTransition (handleNodeClick (handleNodeClick stateC9 "u2") "u2") with
          visibleConnectionCount := 5 }
      = buildGraphData stateC9 :=
  ⟨by decide, by decide,
   c9_expand_collapse_round_trip stateC9 "u2" 5 rfl rfl (by decide) (by decide)
     (by decide)⟩
